import Mathlib

/-!
# Verification of the Excel_Joey data pipeline (`data_logic.py` / `app.py`)

A shallow embedding of the pandas-based table pipeline:

* a `Table` is an ordered list of column names plus rows of optional cells
  (a missing cell models pandas `NaN` / `NaT`);
* `find_table_starting_from_columns` embeds the header-row search
  (`data_logic.py`, lines 7-13);
* `apply_filters` embeds the row filters (lines 15-26); the Python function
  mutates its argument (`df["Leverdatum"] = pd.to_datetime(...)`), so the
  embedding returns the post-call state of the input alongside the filtered
  result; `pd.to_datetime` string/number coercion is abstracted by a
  parameter `conv`, with the identity on already-parsed dates built in;
* `process_filtered_data` (lines 28-38) and `create_aggregated_data`
  (lines 40-42) embed the grouping operations; pandas `groupby` sorts the
  group keys and drops missing keys, which the embedding mirrors;
* `compare_tasks_grouped_by_name` (lines 44-85) embeds the week-over-week
  comparison; Python builds sets from identifier strings, embedded here as
  duplicate-free lists in first-appearance order.
-/

namespace ExcelJoey

/-- A spreadsheet cell payload: text, a number, or an already-parsed date
(a point on an abstract integer timeline, as a pandas `Timestamp`). -/
inductive Value where
  | str : String → Value
  | num : Int → Value
  | date : Int → Value
deriving DecidableEq, Repr

/-- A cell: `none` models pandas `NaN` / `NaT`. -/
abbrev Cell := Option Value

/-- A table row, aligned positionally with the column-name list. -/
abbrev Row := List Cell

/-- A pandas `DataFrame`: ordered column names plus rows. -/
structure Table where
  cols : List String
  rows : List Row
deriving DecidableEq, Repr

/-- Cell of a row at column position `i`; out-of-range reads are missing. -/
def cellAt (r : Row) (i : Nat) : Cell := (r.get? i).getD none

/-- Position of a column name in the header (first occurrence),
`none` when the column is absent (pandas raises `KeyError`). -/
def colIdx? (t : Table) (c : String) : Option Nat := t.cols.findIdx? (· == c)

/-- The values of a named column, in row order (`df[c]`). -/
def getColumn (t : Table) (c : String) : Option (List Cell) :=
  (colIdx? t c).map fun i => t.rows.map (cellAt · i)

/-- Python's substring test `needle in hay`. -/
def substrB (needle hay : String) : Bool := decide (needle.toList <:+: hay.toList)

/-- Stringification used by `.astype(str)`. -/
def valueToString : Value → String
  | .str s => s
  | .num n => toString n
  | .date d => toString d

/-! ## TableLocator: `find_table_starting_from_columns` (data_logic.py 7-13) -/

/-- `all(col in sheet_data.iloc[row_index, :].values for col in required_columns)`:
every required name occurs verbatim as a cell value of the row. -/
def rowHasAll (required : List String) (r : Row) : Bool :=
  required.all fun c => r.contains (some (Value.str c))

/-- Column name taken from a header cell at position `k`
(pandas names a blank header cell `Unnamed: k`). -/
def cellToName (k : Nat) : Cell → String
  | some v => valueToString v
  | none => "Unnamed: " ++ toString k

/-- Column names of a header row. -/
def headerNames (r : Row) : List String := r.enum.map fun p => cellToName p.1 p.2

/-- Pad or truncate a body row to the header width (pandas materializes a
rectangular frame, padding short rows with `NaN`). -/
def padTo (n : Nat) (r : Row) : Row := (r ++ List.replicate (n - r.length) none).take n

/-- `find_table_starting_from_columns` (data_logic.py 7-13): scan the raw grid
top to bottom; the first row containing every required column name becomes
the header, all rows below it the body; `none` when no row qualifies.
(Modelling note: pandas renames exact duplicate header cells by appending
`.1`, `.2`, …; the embedding keeps the raw names, so statements about name
uniqueness carry the raw-distinctness hypothesis explicitly.) -/
def find_table_starting_from_columns (grid : List Row) (required : List String) :
    Option Table :=
  match grid.findIdx? (rowHasAll required) with
  | none => none
  | some i =>
    match grid.drop i with
    | [] => none
    | hdr :: body =>
      let names := headerNames hdr
      some { cols := names, rows := body.map (padTo names.length) }

/-- Newline normalization of one header name (app.py 61:
`col.replace("\n", " ")`); replacing the one-character pattern `"\n"` by a
space is exactly a character-wise map. -/
def normalizeName (c : String) : String :=
  String.mk (c.toList.map fun ch => if ch = '\n' then ' ' else ch)

/-- app.py 61: `df.columns = [col.replace("\n", " ") for col in df.columns]`. -/
def normalizeTable (t : Table) : Table := { t with cols := t.cols.map normalizeName }

/-! ## FilterEngine: `apply_filters` (data_logic.py 15-26) -/

/-- `pd.to_datetime(·, errors="coerce")` on one cell: already-parsed dates map
to themselves, missing stays missing, and coercion of the remaining payloads
(strings, numbers) is abstracted by `conv`, `none` meaning `NaT`. -/
def to_datetime (conv : Value → Option Int) : Cell → Option Int
  | none => none
  | some (Value.date d) => some d
  | some v => conv v

/-- In-place update of the delivery-date cell of a row
(`df["Leverdatum"] = pd.to_datetime(df["Leverdatum"], errors="coerce")`). -/
def parseLevRow (conv : Value → Option Int) (li : Nat) (r : Row) : Row :=
  r.set li ((to_datetime conv (cellAt r li)).map Value.date)

/-- `df["Verantw. Werkplek"].str.contains("VKS", na=False)` on one cell:
missing and non-text cells fail. -/
def workplaceVKS : Cell → Bool
  | some (Value.str s) => substrB "VKS" s
  | _ => false

/-- `df["Status"].isin(["VRIJ", "OPEN"])` on one cell. -/
def statusOk : Cell → Bool
  | some (Value.str s) => s == "VRIJ" || s == "OPEN"
  | _ => false

/-- `df["Leverdatum"] <= today` on one parsed cell; `NaT` fails. -/
def dateLe (today : Int) : Cell → Bool
  | some (Value.date d) => decide (d ≤ today)
  | _ => false

/-- The regular expression `\d+w$` under `re.search` semantics: the string
ends in one-or-more digits followed by the literal `w`. -/
def wsfx (s : String) : Bool :=
  match s.toList.reverse with
  | 'w' :: c :: _ => c.isDigit
  | _ => false

/-- `filtered_df["Omschrijving middel"].str.contains(r"\d+w$", na=False)`:
missing and non-text cells fail (hence survive the negated mask). -/
def descWsfx : Cell → Bool
  | some (Value.str s) => wsfx s
  | _ => false

/-- `df[mask]`: keep the rows whose mask entry is true. -/
def selectRows (rows : List Row) (mask : List Bool) : List Row :=
  ((rows.zip mask).filter (·.2)).map (·.1)

/-- The conjunction of the three fixed predicates, evaluated on one row of
the frame whose `Leverdatum` column has already been overwritten:
`df["Verantw. Werkplek"].str.contains("VKS", na=False) &
 df["Status"].isin(["VRIJ", "OPEN"]) & (df["Leverdatum"] <= today)`. -/
def rowMask (today : Int) (wi si li : Nat) (r : Row) : Bool :=
  workplaceVKS (cellAt r wi) && statusOk (cellAt r si) && dateLe today (cellAt r li)

/-- `apply_filters` (data_logic.py 15-26).  The Python function first
overwrites the input's `Leverdatum` column with its parsed values (an
in-place mutation of the argument), then selects the rows passing the three
fixed predicates, then optionally drops the rows whose description matches
`\d+w$`.  The embedding returns the pair (post-call state of the input,
returned filtered frame); a missing referenced column is a `KeyError`. -/
def apply_filters (conv : Value → Option Int) (today : Int) (df : Table)
    (apply_w_filter : Bool) : Except String (Table × Table) :=
  match colIdx? df "Leverdatum" with
  | none => .error "KeyError: Leverdatum"
  | some li =>
    let df1 : Table := { df with rows := df.rows.map (parseLevRow conv li) }
    match colIdx? df1 "Verantw. Werkplek", colIdx? df1 "Status" with
    | none, _ => .error "KeyError: Verantw. Werkplek"
    | _, none => .error "KeyError: Status"
    | some wi, some si =>
      let mask := df1.rows.map (rowMask today wi si li)
      let filtered : Table := { cols := df1.cols, rows := selectRows df1.rows mask }
      if apply_w_filter then
        match colIdx? filtered "Omschrijving middel" with
        | none => .error "KeyError: Omschrijving middel"
        | some oi =>
          let mask2 := filtered.rows.map fun r => ! descWsfx (cellAt r oi)
          .ok (df1, { cols := filtered.cols, rows := selectRows filtered.rows mask2 })
      else .ok (df1, filtered)

/-! ## Aggregator: `process_filtered_data` (28-38) and `create_aggregated_data` (40-42) -/

/-- Helper for `uniqueFirst`: drop the values already seen, keep the first
occurrence of each new value. -/
def uniqueFirstAux {α : Type} [DecidableEq α] (seen : List α) : List α → List α
  | [] => []
  | a :: t => if a ∈ seen then uniqueFirstAux seen t else a :: uniqueFirstAux (a :: seen) t

/-- `pd.unique`: distinct values in first-appearance order (all missing
values collapse to a single missing entry, as in pandas). -/
def uniqueFirst {α : Type} [DecidableEq α] (l : List α) : List α :=
  uniqueFirstAux [] l

/-- Lexicographic comparison of character sequences by code point — the
order Python uses to compare strings. -/
def charsLe : List Char → List Char → Bool
  | [], _ => true
  | _ :: _, [] => false
  | a :: as, b :: bs =>
    if a.toNat < b.toNat then true
    else if b.toNat < a.toNat then false
    else charsLe as bs

/-- Python's `<=` on strings: lexicographic by code point. -/
def strLe (a b : String) : Bool := charsLe a.toList b.toList

/-- Total order on cell payloads used to model the sorted group keys of
pandas `groupby(sort=True)`: numbers by value, texts lexicographically,
dates by value.  (Mixed-type keys raise in pandas; the cross-constructor
rank order is a total extension never exercised by homogeneous key columns.) -/
def vle : Value → Value → Bool
  | .num a, .num b => decide (a ≤ b)
  | .str a, .str b => strLe a b
  | .date a, .date b => decide (a ≤ b)
  | .num _, _ => true
  | _, .num _ => false
  | .str _, .date _ => true
  | .date _, .str _ => false

/-- `vle` as a relation. -/
def vleR (a b : Value) : Prop := vle a b = true

instance : DecidableRel vleR := fun a b => inferInstanceAs (Decidable (vle a b = true))

/-- The sorted distinct group keys of `df.groupby("Naam")`: missing keys are
dropped, the rest deduplicated and sorted ascending. -/
def groupKeys (rows : List Row) (ni : Nat) : List Value :=
  List.insertionSort vleR (uniqueFirst (rows.filterMap fun r => cellAt r ni))

/-- `create_aggregated_data` (data_logic.py 40-42):
`filtered_df.groupby("Naam").size().reset_index(name="Aantal Taken")` —
one row per distinct non-missing assignee, sorted by key, with the number
of rows carrying that assignee. -/
def create_aggregated_data (df : Table) : Except String Table :=
  match colIdx? df "Naam" with
  | none => .error "KeyError: Naam"
  | some ni =>
    let keys := groupKeys df.rows ni
    .ok { cols := ["Naam", "Aantal Taken"],
          rows := keys.map fun k =>
            [some k, some (Value.num (df.rows.countP fun r => cellAt r ni == some k))] }

/-- Projection of one row onto the selected columns (`df[selected_cols]`). -/
def projectRow (df : Table) (selected : List String) (r : Row) : Row :=
  selected.map fun c => match colIdx? df c with
    | some i => cellAt r i
    | none => none

/-- `process_filtered_data` (data_logic.py 28-38): project onto the selected
columns (`KeyError` if one is absent), and when `per_naam` group the
projected frame by `"Naam"` — which must itself be among the selected
columns or `groupby` raises — returning the groups (key-sorted, missing
keys dropped) and their concatenation. -/
def process_filtered_data (df : Table) (selected : List String) (per_naam : Bool) :
    Except String (Table × Option (List (Value × Table))) :=
  if selected.all fun c => (colIdx? df c).isSome then
    let proj : Table := { cols := selected, rows := df.rows.map (projectRow df selected) }
    if per_naam then
      match colIdx? proj "Naam" with
      | none => .error "KeyError: Naam"
      | some ni =>
        let keys := groupKeys proj.rows ni
        let groups := keys.map fun k =>
          (k, ({ cols := selected,
                 rows := proj.rows.filter fun r => cellAt r ni == some k } : Table))
        .ok ({ cols := selected, rows := (groups.map fun g => g.2.rows).flatten }, some groups)
    else .ok (proj, none)
  else .error "KeyError"

/-! ## ComparisonEngine: `compare_tasks_grouped_by_name` (data_logic.py 44-85) -/

/-- One row of the comparison frame (the dict built at lines 74-82). -/
structure ComparisonRow where
  naam : Cell
  nieuwe : Nat
  oude : Nat
  vorige : Nat
  bewerkte : Nat
  percentage : ℚ
  gemeenschappelijk : String
deriving DecidableEq, Repr

/-- Python `round(·, 1)` on an exact rational: round to one decimal place.
(CPython rounds ties of binary floats to even; the claims under study never
depend on the tie-breaking rule, and `round` here rounds ties up.) -/
def round1 (q : ℚ) : ℚ := (round (q * 10) : ℤ) / 10

/-- Scalar comparison `series == name` as pandas evaluates it inside the
loop: a missing value equals nothing, not even another missing value. -/
def eqScalar (cell key : Cell) : Bool :=
  match cell, key with
  | some a, some b => a == b
  | _, _ => false

/-- The rows of `t` whose `"Naam"` cell (position `ni`) equals the scalar
`key` (`current_df[current_df["Naam"] == name]`). -/
def matchRows (t : Table) (ni : Nat) (key : Cell) : List Row :=
  t.rows.filter fun r => eqScalar (cellAt r ni) key

/-- `set(current_tasks[ob_col].dropna().astype(str))`: the distinct non-missing
identifier strings, embedded as a duplicate-free list in first-appearance
order (Python's set iteration order is unspecified). -/
def idList (t : Table) (ni oi : Nat) (key : Cell) : List String :=
  uniqueFirst ((matchRows t ni key).filterMap fun r => (cellAt r oi).map valueToString)

/-- The comparison row for one assignee, from its current and previous
identifier sets (data_logic.py 67-82). -/
def mkCompRow (key : Cell) (cur prev : List String) : ComparisonRow :=
  let inter := cur.filter fun s => prev.contains s
  let edited := (prev.filter fun s => ! cur.contains s).length
  { naam := key
    nieuwe := (cur.filter fun s => ! prev.contains s).length
    oude := inter.length
    vorige := prev.length
    bewerkte := edited
    percentage := round1 (if prev.length > 0 then (edited * 100 : ℚ) / prev.length else 0)
    gemeenschappelijk := if inter.isEmpty then "" else String.intercalate ", " inter }

/-- The identifier column: the first column of `current` whose name contains
`"Obligo extern formaa"`, else the literal `"OH-order"` (lines 54-56). -/
def obColOf (t : Table) : String :=
  match t.cols.find? fun c => substrB "Obligo extern formaa" c with
  | some c => c
  | none => "OH-order"

/-- Effectful `map` over `Except`, stopping at the first error — the Python
`for` loop appending one dict per name, which raises at the first failing
iteration. -/
def mapME {α β : Type} (f : α → Except String β) : List α → Except String (List β)
  | [] => .ok []
  | a :: t =>
    match f a with
    | .error e => .error e
    | .ok b => (mapME f t).map fun l => b :: l

/-- The body of the per-name loop (lines 62-83): both tables are indexed by
the identifier column (`KeyError` if it is absent from either), and the
comparison row is built from the two identifier sets. -/
def compareRowFor (ob : String) (current previous : Table) (ci pi2 : Nat)
    (key : Cell) : Except String ComparisonRow :=
  match colIdx? current ob, colIdx? previous ob with
  | none, _ => .error ("KeyError: " ++ ob)
  | _, none => .error ("KeyError: " ++ ob)
  | some oi, some oj =>
    .ok (mkCompRow key (idList current ci oi key) (idList previous pi2 oj key))

/-- `compare_tasks_grouped_by_name` (data_logic.py 44-85).  Returns the
chosen identifier-column name (which titles the last output column) and the
comparison rows, one per entry of `pd.unique` over the concatenated
`"Naam"` columns.  The identifier column is only touched inside the loop,
so an empty name union yields an empty result even if it is absent. -/
def compare_tasks_grouped_by_name (current previous : Table) :
    Except String (String × List ComparisonRow) :=
  let ob := obColOf current
  match colIdx? current "Naam", colIdx? previous "Naam" with
  | none, _ => .error "KeyError: Naam"
  | _, none => .error "KeyError: Naam"
  | some ci, some pi2 =>
    let all_names :=
      uniqueFirst ((current.rows.map (cellAt · ci)) ++ (previous.rows.map (cellAt · pi2)))
    (mapME (compareRowFor ob current previous ci pi2) all_names).map fun rows => (ob, rows)

/-! ## Claim-side vocabulary

Definitions used only to state the claims in the spec's own terms, to be
compared with what the embedded code computes. -/

/-- The claims' delivery-date predicate on one raw cell: the cell parses to
a calendar date that is on or before `today`; unparsable and missing cells
fail. -/
def deliveryOnTime (conv : Value → Option Int) (today : Int) (c : Cell) : Bool :=
  match to_datetime conv c with
  | some d => decide (d ≤ today)
  | none => false

/-- Claim C1's identifier set, following the claim's words: the distinct
stringified non-missing identifiers of "that assignee's rows", i.e. of the
rows whose assignee cell is literally `key` — so the rows with a missing
assignee count as the missing key's rows. -/
def claimIdSet (t : Table) (ni oi : Nat) (key : Cell) : Finset String :=
  ((t.rows.filter fun r => cellAt r ni == key).filterMap fun r =>
    (cellAt r oi).map valueToString).toFinset

/-- The identifier set the code effectively computes for an assignee value
`key`: the stringified non-missing identifiers of the rows whose assignee
cell equals the scalar `key` under pandas scalar comparison (`eqScalar`:
a missing assignee matches no row).  Presented as a `Finset` so the claims'
set cardinalities can be stated directly. -/
def idFinset (t : Table) (ni oi : Nat) (key : Cell) : Finset String :=
  ((matchRows t ni key).filterMap fun r => (cellAt r oi).map valueToString).toFinset

/-- The required header columns the application passes to the locator
(app.py 41-49). -/
def appRequiredColumns : List String :=
  ["OH-planningsgroep", "Naam", "Status", "Omschrijving middel",
   "Verantw. Werkplek", "Leverdatum", "OH-order"]

/-! ## Concrete fixtures for witnesses and counterexamples -/

/-- A parse function for concrete fixtures: no string or number coerces to
a date. -/
def noConv : Value → Option Int := fun _ => none

/-- Fixture: a filterable frame exercising every predicate of
`apply_filters`. -/
def fixFilterDf : Table :=
  { cols := ["Verantw. Werkplek", "Status", "Leverdatum", "Omschrijving middel"],
    rows := [
      [some (Value.str "VKS-A"), some (Value.str "VRIJ"), some (Value.date 3),
        some (Value.str "12w")],
      [some (Value.str "VKS-A"), some (Value.str "OPEN"), some (Value.date 3),
        some (Value.str "ok")],
      [some (Value.str "ABC"), some (Value.str "VRIJ"), some (Value.date 3),
        some (Value.str "ok")],
      [some (Value.str "VKS-A"), some (Value.str "VRIJ"), some (Value.str "junk"),
        some (Value.str "ok")],
      [some (Value.str "VKS-A"), some (Value.str "VRIJ"), some (Value.date 99), none]] }

/-- Fixture: one row whose delivery date is an unparsable string, making the
in-place `Leverdatum` overwrite observable. -/
def fixMutDf : Table :=
  { cols := ["Verantw. Werkplek", "Status", "Leverdatum", "Omschrijving middel"],
    rows := [[some (Value.str "VKS"), some (Value.str "VRIJ"),
      some (Value.str "not a date"), none]] }

/-- Fixture: current week, assignee `A` with identifiers `{"1", "2"}`. -/
def fixCur : Table :=
  { cols := ["Naam", "OH-order"],
    rows := [[some (Value.str "A"), some (Value.str "1")],
             [some (Value.str "A"), some (Value.str "2")]] }

/-- Fixture: previous week, assignee `A` with identifiers `{"2", "3"}`. -/
def fixPrev : Table :=
  { cols := ["Naam", "OH-order"],
    rows := [[some (Value.str "A"), some (Value.str "2")],
             [some (Value.str "A"), some (Value.str "3")]] }

/-- Fixture: a current week holding one row with a missing assignee but a
present identifier `"7"`. -/
def fixCurMissing : Table :=
  { cols := ["Naam", "OH-order"], rows := [[none, some (Value.str "7")]] }

/-- Fixture: an empty previous week with the same columns. -/
def fixPrevEmpty : Table :=
  { cols := ["Naam", "OH-order"], rows := [] }

/-- Fixture: current = previous = assignee `A` with identifier `{"1"}`. -/
def fixSame : Table :=
  { cols := ["Naam", "OH-order"],
    rows := [[some (Value.str "A"), some (Value.str "1")]] }

/-- Fixture: assignees appear in the order `B`, `A`, missing. -/
def fixAggDf : Table :=
  { cols := ["Naam"],
    rows := [[some (Value.str "B")], [some (Value.str "A")], [none]] }

/-- Fixture: a table with a `Naam` column and no rows, but no identifier
column. -/
def fixNoIdEmpty : Table := { cols := ["Naam"], rows := [] }

/-- Fixture: a table with a `Naam` column and one row, and no identifier
column. -/
def fixNoIdOneRow : Table :=
  { cols := ["Naam"], rows := [[some (Value.str "A")]] }

/-- Fixture: a raw grid whose header row carries all required columns plus
two extra headers that collide after newline normalization. -/
def fixCollideGrid : List Row :=
  [[some (Value.str "junk"), some (Value.num 3)],
   [some (Value.str "OH-planningsgroep"), some (Value.str "Naam"),
    some (Value.str "Status"), some (Value.str "Omschrijving middel"),
    some (Value.str "Verantw. Werkplek"), some (Value.str "Leverdatum"),
    some (Value.str "OH-order"), some (Value.str "A\nB"), some (Value.str "A B")],
   [some (Value.str "g1"), some (Value.str "henk"), some (Value.str "VRIJ"),
    some (Value.str "ok"), some (Value.str "VKS"), some (Value.date 1),
    some (Value.str "1"), some (Value.num 2), some (Value.num 3)]]

/-- The post-call state of `fixFilterDf`: its unparsable delivery date has
become a missing value, the parsed dates stand unchanged. -/
def fixFilterMut : Table :=
  { cols := ["Verantw. Werkplek", "Status", "Leverdatum", "Omschrijving middel"],
    rows := [
      [some (Value.str "VKS-A"), some (Value.str "VRIJ"), some (Value.date 3),
        some (Value.str "12w")],
      [some (Value.str "VKS-A"), some (Value.str "OPEN"), some (Value.date 3),
        some (Value.str "ok")],
      [some (Value.str "ABC"), some (Value.str "VRIJ"), some (Value.date 3),
        some (Value.str "ok")],
      [some (Value.str "VKS-A"), some (Value.str "VRIJ"), none,
        some (Value.str "ok")],
      [some (Value.str "VKS-A"), some (Value.str "VRIJ"), some (Value.date 99), none]] }

/-- The rows of `fixFilterDf` surviving all predicates at `today = 10` with
the suffix filter on. -/
def fixFilterOut : Table :=
  { cols := ["Verantw. Werkplek", "Status", "Leverdatum", "Omschrijving middel"],
    rows := [[some (Value.str "VKS-A"), some (Value.str "OPEN"), some (Value.date 3),
      some (Value.str "ok")]] }

/-- The table the locator extracts from `fixCollideGrid`. -/
def fixCollideTab : Table :=
  { cols := ["OH-planningsgroep", "Naam", "Status", "Omschrijving middel",
      "Verantw. Werkplek", "Leverdatum", "OH-order", "A\nB", "A B"],
    rows := [[some (Value.str "g1"), some (Value.str "henk"), some (Value.str "VRIJ"),
      some (Value.str "ok"), some (Value.str "VKS"), some (Value.date 1),
      some (Value.str "1"), some (Value.num 2), some (Value.num 3)]] }

/-- The table the locator extracts from `fixGoodGrid`. -/
def fixGoodTab : Table :=
  { cols := ["OH-planningsgroep", "Naam", "Status", "Omschrijving middel",
      "Verantw. Werkplek", "Leverdatum", "OH-order"],
    rows := [[some (Value.str "g1"), some (Value.str "henk"), some (Value.str "VRIJ"),
      some (Value.str "ok"), some (Value.str "VKS"), some (Value.date 1),
      some (Value.str "1")]] }

/-- Fixture: a raw grid with a decoy row above the genuine header row, whose
header names stay distinct after normalization. -/
def fixGoodGrid : List Row :=
  [[some (Value.str "Naam"), some (Value.str "decoy")],
   [some (Value.str "OH-planningsgroep"), some (Value.str "Naam"),
    some (Value.str "Status"), some (Value.str "Omschrijving middel"),
    some (Value.str "Verantw. Werkplek"), some (Value.str "Leverdatum"),
    some (Value.str "OH-order")],
   [some (Value.str "g1"), some (Value.str "henk"), some (Value.str "VRIJ"),
    some (Value.str "ok"), some (Value.str "VKS"), some (Value.date 1),
    some (Value.str "1")]]

/-! ## Library lemmas about the building blocks -/

theorem cellAt_set_ne (r : Row) (v : Cell) {i j : Nat} (h : i ≠ j) :
    cellAt (r.set i v) j = cellAt r j := by
  simp [cellAt, List.get?_eq_getElem?, List.getElem?_set_ne h]

theorem cellAt_set_lt (r : Row) (v : Cell) {i : Nat} (h : i < r.length) :
    cellAt (r.set i v) i = v := by
  simp [cellAt, List.get?_eq_getElem?, List.getElem?_set_self h]

theorem cellAt_of_length_le (r : Row) {i : Nat} (h : r.length ≤ i) :
    cellAt r i = none := by
  simp [cellAt, List.get?_eq_getElem?, List.getElem?_eq_none h]

theorem selectRows_map (rows : List Row) (p : Row → Bool) :
    selectRows rows (rows.map p) = rows.filter p := by
  induction rows with
  | nil => rfl
  | cons r rs ih =>
    simp only [List.map_cons, selectRows, List.zip_cons_cons, List.filter_cons] at *
    by_cases hp : p r <;> simp [hp, ih]

theorem mem_uniqueFirstAux {α : Type} [DecidableEq α] {a : α} {l seen : List α} :
    a ∈ uniqueFirstAux seen l ↔ a ∈ l ∧ a ∉ seen := by
  induction l generalizing seen with
  | nil => simp [uniqueFirstAux]
  | cons b t ih =>
    by_cases hb : b ∈ seen
    · rw [uniqueFirstAux, if_pos hb, ih]
      constructor
      · rintro ⟨h1, h2⟩
        exact ⟨List.mem_cons_of_mem _ h1, h2⟩
      · rintro ⟨h1, h2⟩
        rcases List.mem_cons.mp h1 with rfl | h1
        · exact absurd hb h2
        · exact ⟨h1, h2⟩
    · rw [uniqueFirstAux, if_neg hb]
      simp only [List.mem_cons, ih, List.mem_cons, not_or]
      constructor
      · rintro (rfl | ⟨h1, h2, h3⟩)
        · exact ⟨Or.inl rfl, hb⟩
        · exact ⟨Or.inr h1, h3⟩
      · rintro ⟨rfl | h1, h2⟩
        · exact Or.inl rfl
        · by_cases hab : a = b
          · exact Or.inl hab
          · exact Or.inr ⟨h1, hab, h2⟩

theorem mem_uniqueFirst {α : Type} [DecidableEq α] {a : α} {l : List α} :
    a ∈ uniqueFirst l ↔ a ∈ l := by
  rw [uniqueFirst, mem_uniqueFirstAux]
  simp

theorem nodup_uniqueFirstAux {α : Type} [DecidableEq α] (seen l : List α) :
    (uniqueFirstAux seen l).Nodup := by
  induction l generalizing seen with
  | nil => simp [uniqueFirstAux]
  | cons b t ih =>
    by_cases hb : b ∈ seen
    · rw [uniqueFirstAux, if_pos hb]
      exact ih seen
    · rw [uniqueFirstAux, if_neg hb, List.nodup_cons]
      refine ⟨fun hmem => ?_, ih (b :: seen)⟩
      exact (mem_uniqueFirstAux.mp hmem).2 (List.mem_cons_self _ _)

theorem nodup_uniqueFirst {α : Type} [DecidableEq α] (l : List α) :
    (uniqueFirst l).Nodup :=
  nodup_uniqueFirstAux [] l

theorem uniqueFirst_eq_nil_iff {α : Type} [DecidableEq α] (l : List α) :
    uniqueFirst l = [] ↔ l = [] := by
  cases l with
  | nil => simp [uniqueFirst, uniqueFirstAux]
  | cons a t => simp [uniqueFirst, uniqueFirstAux]

theorem toFinset_uniqueFirst {α : Type} [DecidableEq α] (l : List α) :
    (uniqueFirst l).toFinset = l.toFinset := by
  ext a
  simp [List.mem_toFinset, mem_uniqueFirst]

theorem length_uniqueFirst_eq_card {α : Type} [DecidableEq α] (l : List α) :
    (uniqueFirst l).length = l.toFinset.card := by
  rw [← toFinset_uniqueFirst, List.toFinset_card_of_nodup (nodup_uniqueFirst l)]

theorem colIdx?_mk (cols : List String) (rows rows' : List Row) (c : String) :
    colIdx? { cols := cols, rows := rows' } c = colIdx? { cols := cols, rows := rows } c :=
  rfl

theorem colIdx?_congr_cols {t t' : Table} (h : t'.cols = t.cols) (c : String) :
    colIdx? t' c = colIdx? t c := by
  unfold colIdx?
  rw [h]

theorem colIdx?_getElem {t : Table} {c : String} {i : Nat} (h : colIdx? t c = some i) :
    ∃ hlt : i < t.cols.length, t.cols.get ⟨i, hlt⟩ = c := by
  rw [colIdx?, List.findIdx?_eq_some_iff_getElem] at h
  obtain ⟨hlt, hp, _⟩ := h
  exact ⟨hlt, by simpa using hp⟩

theorem colIdx?_ne {t : Table} {c c' : String} {i j : Nat}
    (h : colIdx? t c = some i) (h' : colIdx? t c' = some j) (hcc : c ≠ c') : i ≠ j := by
  rintro rfl
  obtain ⟨hl, e⟩ := colIdx?_getElem h
  obtain ⟨hl', e'⟩ := colIdx?_getElem h'
  exact hcc (e.symm.trans e')

theorem parseLevRow_idem (conv : Value → Option Int) (li : Nat) (r : Row) :
    parseLevRow conv li (parseLevRow conv li r) = parseLevRow conv li r := by
  rcases lt_or_le li r.length with h | h
  · unfold parseLevRow
    rw [cellAt_set_lt _ _ h, List.set_set]
    cases hd : to_datetime conv (cellAt r li) with
    | none => simp [to_datetime]
    | some d => simp [to_datetime]
  · unfold parseLevRow
    rw [List.set_eq_of_length_le h, List.set_eq_of_length_le h]

theorem dateLe_parseLevRow (conv : Value → Option Int) (today : Int) (li : Nat) (r : Row) :
    dateLe today (cellAt (parseLevRow conv li r) li) =
      deliveryOnTime conv today (cellAt r li) := by
  rcases lt_or_le li r.length with h | h
  · rw [parseLevRow, cellAt_set_lt _ _ h]
    cases hd : to_datetime conv (cellAt r li) with
    | none => simp [deliveryOnTime, hd, dateLe]
    | some d => simp [deliveryOnTime, hd, dateLe]
  · rw [parseLevRow, List.set_eq_of_length_le h, cellAt_of_length_le _ h]
    simp [deliveryOnTime, to_datetime, dateLe]

theorem cellAt_parseLevRow_ne (conv : Value → Option Int) {li j : Nat} (h : li ≠ j)
    (r : Row) : cellAt (parseLevRow conv li r) j = cellAt r j :=
  cellAt_set_ne r _ h

theorem groupKeys_perm (rows : List Row) (ni : Nat) :
    (groupKeys rows ni).Perm (uniqueFirst (rows.filterMap fun r => cellAt r ni)) :=
  List.perm_insertionSort vleR _

theorem nodup_groupKeys (rows : List Row) (ni : Nat) : (groupKeys rows ni).Nodup :=
  (groupKeys_perm rows ni).symm.nodup (nodup_uniqueFirst _)

theorem mem_groupKeys {rows : List Row} {ni : Nat} {v : Value} :
    v ∈ groupKeys rows ni ↔ some v ∈ rows.map fun r => cellAt r ni := by
  rw [(groupKeys_perm rows ni).mem_iff, mem_uniqueFirst, List.mem_filterMap, List.mem_map]

theorem charsLe_total (a b : List Char) : charsLe a b = true ∨ charsLe b a = true := by
  induction a generalizing b with
  | nil => exact Or.inl rfl
  | cons x as ih =>
    cases b with
    | nil => exact Or.inr rfl
    | cons y bs =>
      rcases Nat.lt_trichotomy x.toNat y.toNat with h | h | h
      · left
        simp [charsLe, h]
      · rcases ih bs with h2 | h2
        · left
          simp [charsLe, h, h2]
        · right
          simp [charsLe, h.symm, h2]
      · right
        simp [charsLe, h]

theorem charsLe_trans {a b c : List Char} (h1 : charsLe a b = true)
    (h2 : charsLe b c = true) : charsLe a c = true := by
  induction a generalizing b c with
  | nil => rfl
  | cons x as ih =>
    cases b with
    | nil => exact absurd h1 (by simp [charsLe])
    | cons y bs =>
      cases c with
      | nil => exact absurd h2 (by simp [charsLe])
      | cons z cs =>
        simp only [charsLe] at h1 h2 ⊢
        by_cases hxy : x.toNat < y.toNat
        · by_cases hyz : y.toNat < z.toNat
          · have hxz : x.toNat < z.toNat := Nat.lt_trans hxy hyz
            simp [hxz]
          · by_cases hzy : z.toNat < y.toNat
            · rw [if_neg hyz, if_pos hzy] at h2
              exact absurd h2 (by simp)
            · have hxz : x.toNat < z.toNat := by omega
              simp [hxz]
        · by_cases hyx : y.toNat < x.toNat
          · rw [if_neg hxy, if_pos hyx] at h1
            exact absurd h1 (by simp)
          · by_cases hyz : y.toNat < z.toNat
            · have hxz : x.toNat < z.toNat := by omega
              simp [hxz]
            · by_cases hzy : z.toNat < y.toNat
              · rw [if_neg hyz, if_pos hzy] at h2
                exact absurd h2 (by simp)
              · have hxz : ¬ x.toNat < z.toNat := by omega
                have hzx : ¬ z.toNat < x.toNat := by omega
                rw [if_neg hxy, if_neg hyx] at h1
                rw [if_neg hyz, if_neg hzy] at h2
                rw [if_neg hxz, if_neg hzx]
                exact ih h1 h2

theorem vle_total (a b : Value) : vle a b = true ∨ vle b a = true := by
  cases a <;> cases b <;> simp [vle, strLe, decide_eq_true_eq] <;>
    first
      | apply charsLe_total
      | apply le_total

theorem vle_trans {a b c : Value} (h1 : vle a b = true) (h2 : vle b c = true) :
    vle a c = true := by
  cases a <;> cases b <;> cases c <;>
    simp [vle, strLe, decide_eq_true_eq] at h1 h2 ⊢ <;>
    first
      | exact charsLe_trans h1 h2
      | exact le_trans h1 h2

theorem sorted_groupKeys (rows : List Row) (ni : Nat) :
    List.Sorted vleR (groupKeys rows ni) := by
  haveI : IsTotal Value vleR := ⟨vle_total⟩
  haveI : IsTrans Value vleR := ⟨fun _ _ _ => vle_trans⟩
  exact List.sorted_insertionSort vleR _

theorem sum_map_add {α : Type} (l : List α) (f g : α → Nat) :
    (l.map fun a => f a + g a).sum = (l.map f).sum + (l.map g).sum := by
  induction l with
  | nil => rfl
  | cons a t ih =>
    simp only [List.map_cons, List.sum_cons, ih]
    omega

theorem sum_indicator_zero {α : Type} [DecidableEq α] {v : α} {ks : List α}
    (hv : v ∉ ks) : (ks.map fun k => if v = k then 1 else 0).sum = 0 := by
  induction ks with
  | nil => rfl
  | cons k t ih =>
    simp only [List.mem_cons, not_or] at hv
    simp [hv.1, ih hv.2]

theorem sum_indicator_one {α : Type} [DecidableEq α] {v : α} {ks : List α}
    (hnd : ks.Nodup) (hv : v ∈ ks) :
    (ks.map fun k => if v = k then 1 else 0).sum = 1 := by
  induction ks with
  | nil => simp at hv
  | cons k t ih =>
    rw [List.nodup_cons] at hnd
    rcases List.mem_cons.mp hv with rfl | hvt
    · have hvt : v ∉ t := hnd.1
      simp [sum_indicator_zero hvt]
    · have hvk : v ≠ k := by
        rintro rfl
        exact hnd.1 hvt
      simp [hvk, ih hnd.2 hvt]

theorem sum_counts_eq {α : Type} [DecidableEq α] (ks : List α) (hnd : ks.Nodup)
    (f : Row → Option α) (rows : List Row)
    (hcov : ∀ r ∈ rows, ∀ v, f r = some v → v ∈ ks) :
    (ks.map fun k => rows.countP fun r => f r == some k).sum =
      rows.countP fun r => (f r).isSome := by
  induction rows with
  | nil => simp
  | cons r rs ih =>
    have ih' := ih fun r hr v hv => hcov r (List.mem_cons_of_mem _ hr) v hv
    simp only [List.countP_cons]
    rw [sum_map_add, ih']
    cases hf : f r with
    | none => simp [hf]
    | some v =>
      have hvks : v ∈ ks := hcov r (List.mem_cons_self _ _) v hf
      have hsum : (ks.map fun k => if (some v == some k) = true then 1 else 0).sum = 1 := by
        have e : (fun k : α => if (some v == some k) = true then 1 else 0) =
            fun k => if v = k then 1 else 0 := funext fun k => by simp
        rw [e]
        exact sum_indicator_one hnd hvks
      rw [hsum]
      simp

theorem mapME_ok_map {α β : Type} {f : α → Except String β} {g : α → β} {l : List α}
    (hf : ∀ a ∈ l, f a = .ok (g a)) : mapME f l = .ok (l.map g) := by
  induction l with
  | nil => rfl
  | cons a t ih =>
    simp only [mapME, hf a (List.mem_cons_self _ _),
      ih fun x hx => hf x (List.mem_cons_of_mem _ hx), List.map_cons]
    rfl

theorem mapME_error_head {α β : Type} {f : α → Except String β} {a : α} {t : List α}
    {e : String} (hf : f a = .error e) : mapME f (a :: t) = .error e := by
  simp [mapME, hf]

theorem mapME_ok_elim {α β : Type} {f : α → Except String β} {l : List α} {bs : List β}
    (h : mapME f l = .ok bs) : ∀ b ∈ bs, ∃ a ∈ l, f a = .ok b := by
  induction l generalizing bs with
  | nil =>
    simp only [mapME, Except.ok.injEq] at h
    subst h
    simp
  | cons a t ih =>
    simp only [mapME] at h
    cases hfa : f a with
    | error e =>
      rw [hfa] at h
      exact absurd h (by simp)
    | ok b0 =>
      rw [hfa] at h
      cases hmt : mapME f t with
      | error e =>
        rw [hmt] at h
        exact absurd h (by simp [Except.map])
      | ok bs0 =>
        rw [hmt] at h
        simp only [Except.map, Except.ok.injEq] at h
        subst h
        intro b hb
        rcases List.mem_cons.mp hb with rfl | hb0
        · exact ⟨a, List.mem_cons_self _ _, hfa⟩
        · obtain ⟨x, hx, hfx⟩ := ih hmt b hb0
          exact ⟨x, List.mem_cons_of_mem _ hx, hfx⟩

theorem round1_zero : round1 0 = 0 := by
  simp [round1]

theorem round1_nonneg {q : ℚ} (h : 0 ≤ q) : 0 ≤ round1 q := by
  have h1 : (0 : ℤ) ≤ round (q * 10) := by
    rw [round_eq]
    exact Int.le_floor.mpr (by push_cast; linarith)
  unfold round1
  positivity

theorem round1_le_100 {q : ℚ} (h : q ≤ 100) : round1 q ≤ 100 := by
  have h1 : round (q * 10) ≤ 1000 := by
    rw [round_eq]
    exact Int.floor_le_iff.mpr (by push_cast; linarith)
  unfold round1
  rw [div_le_iff₀ (by norm_num)]
  calc (round (q * 10) : ℚ) ≤ (1000 : ℤ) := by exact_mod_cast h1
    _ = 100 * 10 := by norm_num

/-! ## Shape lemmas for `apply_filters` -/

theorem selectRows_map_of_eq (rows : List Row) (mask : List Bool) (p : Row → Bool)
    (hm : mask = rows.map p) : selectRows rows mask = rows.filter p := by
  subst hm
  exact selectRows_map rows p

theorem apply_filters_false_intro (conv : Value → Option Int) (today : Int) (df : Table)
    {li wi si : Nat}
    (hli : colIdx? df "Leverdatum" = some li)
    (hwi : colIdx? df "Verantw. Werkplek" = some wi)
    (hsi : colIdx? df "Status" = some si) :
    apply_filters conv today df false = .ok
      ({ df with rows := df.rows.map (parseLevRow conv li) },
       { cols := df.cols,
         rows := (df.rows.map (parseLevRow conv li)).filter (rowMask today wi si li) }) := by
  have hli' : List.findIdx? (· == "Leverdatum") df.cols = some li := hli
  have hwi' : List.findIdx? (· == "Verantw. Werkplek") df.cols = some wi := hwi
  have hsi' : List.findIdx? (· == "Status") df.cols = some si := hsi
  simp only [apply_filters, colIdx?, hli', hwi', hsi', Bool.false_eq_true, if_false]
  rw [selectRows_map_of_eq _ _ (rowMask today wi si li) (by rw [List.map_map])]

theorem apply_filters_true_intro (conv : Value → Option Int) (today : Int) (df : Table)
    {li wi si oi : Nat}
    (hli : colIdx? df "Leverdatum" = some li)
    (hwi : colIdx? df "Verantw. Werkplek" = some wi)
    (hsi : colIdx? df "Status" = some si)
    (hoi : colIdx? df "Omschrijving middel" = some oi) :
    apply_filters conv today df true = .ok
      ({ df with rows := df.rows.map (parseLevRow conv li) },
       { cols := df.cols,
         rows := ((df.rows.map (parseLevRow conv li)).filter (rowMask today wi si li)).filter
           fun r => !descWsfx (cellAt r oi) }) := by
  have hli' : List.findIdx? (· == "Leverdatum") df.cols = some li := hli
  have hwi' : List.findIdx? (· == "Verantw. Werkplek") df.cols = some wi := hwi
  have hsi' : List.findIdx? (· == "Status") df.cols = some si := hsi
  have hoi' : List.findIdx? (· == "Omschrijving middel") df.cols = some oi := hoi
  simp only [apply_filters, colIdx?, hli', hwi', hsi', hoi', if_true]
  rw [selectRows_map,
    selectRows_map_of_eq _ _ (rowMask today wi si li) (by rw [List.map_map])]

theorem apply_filters_ok_elim {conv : Value → Option Int} {today : Int} {df : Table}
    {flag : Bool} {df1 out : Table}
    (h : apply_filters conv today df flag = .ok (df1, out)) :
    ∃ li wi si, colIdx? df "Leverdatum" = some li ∧
      colIdx? df "Verantw. Werkplek" = some wi ∧ colIdx? df "Status" = some si ∧
      df1.cols = df.cols ∧ df1.rows = df.rows.map (parseLevRow conv li) ∧
      out.cols = df.cols ∧
      ((flag = false ∧
        out.rows = (df.rows.map (parseLevRow conv li)).filter (rowMask today wi si li)) ∨
       (flag = true ∧ ∃ oi, colIdx? df "Omschrijving middel" = some oi ∧
        out.rows = ((df.rows.map (parseLevRow conv li)).filter (rowMask today wi si li)).filter
          fun r => !descWsfx (cellAt r oi))) := by
  simp only [apply_filters, colIdx?] at h
  cases hli : List.findIdx? (· == "Leverdatum") df.cols with
  | none =>
    rw [hli] at h
    exact absurd h (by simp)
  | some li =>
  rw [hli] at h
  cases hwi : List.findIdx? (· == "Verantw. Werkplek") df.cols with
  | none =>
    rw [hwi] at h
    exact absurd h (by simp)
  | some wi =>
  rw [hwi] at h
  cases hsi : List.findIdx? (· == "Status") df.cols with
  | none =>
    rw [hsi] at h
    exact absurd h (by simp)
  | some si =>
  rw [hsi] at h
  refine ⟨li, wi, si, hli, hwi, hsi, ?_⟩
  cases flag with
  | false =>
    simp only [Bool.false_eq_true, if_false] at h
    rw [Except.ok.injEq, Prod.mk.injEq] at h
    obtain ⟨h1, h2⟩ := h
    subst h1
    subst h2
    refine ⟨rfl, rfl, rfl, Or.inl ⟨rfl, ?_⟩⟩
    exact selectRows_map_of_eq _ _ _ (by rw [List.map_map])
  | true =>
    simp only [if_true] at h
    cases hoi : List.findIdx? (· == "Omschrijving middel") df.cols with
    | none =>
      rw [hoi] at h
      exact absurd h (by simp)
    | some oi =>
      rw [hoi] at h
      rw [Except.ok.injEq, Prod.mk.injEq] at h
      obtain ⟨h1, h2⟩ := h
      subst h1
      subst h2
      refine ⟨rfl, rfl, rfl, Or.inr ⟨rfl, oi, hoi, ?_⟩⟩
      rw [selectRows_map,
        selectRows_map_of_eq _ _ (rowMask today wi si li) (by rw [List.map_map])]

/-! ## Lemmas about the table locator -/

theorem rowHasAll_iff (required : List String) (r : Row) :
    rowHasAll required r = true ↔ ∀ c ∈ required, some (Value.str c) ∈ r := by
  simp only [rowHasAll, List.all_eq_true, List.elem_iff]

/-! ## Claim theorems -/

/-- Claim C3: `find_table_starting_from_columns` scans the grid top to
bottom; the first (topmost) row in which every required column name occurs
as a cell value (order-independent exact match) is the header, the body is
exactly the rows below it, and the locator returns `none` exactly when no
row of the grid contains all required names. -/
theorem find_table_locates_first_header (grid : List Row) (required : List String) :
    (find_table_starting_from_columns grid required = none ↔
      ∀ r ∈ grid, ¬ ∀ c ∈ required, some (Value.str c) ∈ r) ∧
    ∀ t, find_table_starting_from_columns grid required = some t →
      ∃ i, ∃ hi : i < grid.length,
        (∀ c ∈ required, some (Value.str c) ∈ grid.get ⟨i, hi⟩) ∧
        (∀ r ∈ grid.take i, ¬ ∀ c ∈ required, some (Value.str c) ∈ r) ∧
        t.cols = headerNames (grid.get ⟨i, hi⟩) ∧
        t.rows = (grid.drop (i + 1)).map (padTo t.cols.length) := by
  constructor
  · cases hidx : grid.findIdx? (rowHasAll required) with
    | none =>
      simp only [find_table_starting_from_columns, hidx, true_iff]
      intro r hr
      rw [← rowHasAll_iff]
      simp [List.findIdx?_eq_none_iff.mp hidx r hr]
    | some i =>
      obtain ⟨hlt, hp, -⟩ := List.findIdx?_eq_some_iff_getElem.mp hidx
      simp only [find_table_starting_from_columns, hidx, List.drop_eq_getElem_cons hlt]
      constructor
      · intro h
        exact absurd h (by simp)
      · intro hall
        exact absurd ((rowHasAll_iff _ _).mp hp)
          (by simpa using hall _ (List.getElem_mem hlt))
  · intro t ht
    cases hidx : grid.findIdx? (rowHasAll required) with
    | none =>
      rw [find_table_starting_from_columns, hidx] at ht
      cases ht
    | some i =>
      obtain ⟨hlt, hp, hmin⟩ := List.findIdx?_eq_some_iff_getElem.mp hidx
      simp only [find_table_starting_from_columns, hidx,
        List.drop_eq_getElem_cons hlt, Option.some.injEq] at ht
      subst ht
      refine ⟨i, hlt, ?_, ?_, rfl, rfl⟩
      · exact (rowHasAll_iff _ _).mp (by simpa using hp)
      · intro r hr
        rw [List.mem_take_iff_getElem] at hr
        obtain ⟨j, hj, rfl⟩ := hr
        have hji : j < i := lt_of_lt_of_le hj (min_le_left _ _)
        intro hc
        exact hmin j hji (by simpa using (rowHasAll_iff _ _).mpr hc)

/-- Claim C2: a row of a parsed table survives `apply_filters` exactly when
its workplace text contains `"VKS"` (missing fails), its status is exactly
`"VRIJ"` or `"OPEN"`, its delivery date parses to a date on or before today
(unparsable fails), and — only when the flag is set — its description does
not match `\d+w$` (missing description passes).  The surviving rows are
returned with their delivery-date cell overwritten by its parsed value. -/
theorem apply_filters_row_characterization
    (conv : Value → Option Int) (today : Int) (df : Table) (flag : Bool)
    {df1 out : Table} {li wi si oi : Nat}
    (hli : colIdx? df "Leverdatum" = some li)
    (hwi : colIdx? df "Verantw. Werkplek" = some wi)
    (hsi : colIdx? df "Status" = some si)
    (hoi : colIdx? df "Omschrijving middel" = some oi)
    (h : apply_filters conv today df flag = .ok (df1, out)) :
    out.rows = (df.rows.filter fun r =>
      workplaceVKS (cellAt r wi) && statusOk (cellAt r si) &&
      deliveryOnTime conv today (cellAt r li) &&
      (!flag || !descWsfx (cellAt r oi))).map (parseLevRow conv li) := by
  obtain ⟨li', wi', si', hli2, hwi2, hsi2, hc1, hr1, hoc, hcase⟩ := apply_filters_ok_elim h
  rw [hli2] at hli
  rw [hwi2] at hwi
  rw [hsi2] at hsi
  obtain rfl : li' = li := Option.some.inj hli
  obtain rfl : wi' = wi := Option.some.inj hwi
  obtain rfl : si' = si := Option.some.inj hsi
  have hwl : li' ≠ wi' := colIdx?_ne hli2 hwi2 (by decide)
  have hsl : li' ≠ si' := colIdx?_ne hli2 hsi2 (by decide)
  have hol : li' ≠ oi := colIdx?_ne hli2 hoi (by decide)
  rcases hcase with ⟨hflag, hrows⟩ | ⟨hflag, oi', hoi2, hrows⟩
  · subst hflag
    rw [hrows, List.filter_map]
    refine congrArg _ (List.filter_congr fun r hr => ?_)
    simp only [Function.comp_apply, rowMask, dateLe_parseLevRow,
      cellAt_parseLevRow_ne conv hwl, cellAt_parseLevRow_ne conv hsl,
      Bool.not_false, Bool.true_or, Bool.and_true]
  · subst hflag
    rw [hoi2] at hoi
    obtain rfl : oi' = oi := Option.some.inj hoi
    rw [hrows, List.filter_filter, List.filter_map]
    refine congrArg _ (List.filter_congr fun r hr => ?_)
    simp only [Function.comp_apply, rowMask, dateLe_parseLevRow,
      cellAt_parseLevRow_ne conv hwl, cellAt_parseLevRow_ne conv hsl,
      cellAt_parseLevRow_ne conv hol, Bool.not_true, Bool.false_or]
    simp [Bool.and_comm, Bool.and_left_comm, Bool.and_assoc]

/-- Claim C5, amended: `apply_filters` succeeds on any table carrying the
four referenced columns (an empty selection of rows is an `ok` result, not
an error) and returns a fresh filtered table, but the call rewrites the
input's delivery-date column in place with its parsed values; every cell
outside that column is left unchanged. -/
theorem apply_filters_frame
    (conv : Value → Option Int) (today : Int) (df : Table) (flag : Bool)
    {li wi si oi : Nat}
    (hli : colIdx? df "Leverdatum" = some li)
    (hwi : colIdx? df "Verantw. Werkplek" = some wi)
    (hsi : colIdx? df "Status" = some si)
    (hoi : colIdx? df "Omschrijving middel" = some oi) :
    ∃ df1 out, apply_filters conv today df flag = .ok (df1, out) ∧
      df1.cols = df.cols ∧
      df1.rows = df.rows.map (parseLevRow conv li) ∧
      (∀ r ∈ df.rows, ∀ j, j ≠ li → cellAt (parseLevRow conv li r) j = cellAt r j) ∧
      out.cols = df.cols := by
  have hcells : ∀ r ∈ df.rows, ∀ j, j ≠ li →
      cellAt (parseLevRow conv li r) j = cellAt r j :=
    fun r _ j hj => cellAt_parseLevRow_ne conv (fun e => hj e.symm) r
  cases flag with
  | false =>
    exact ⟨_, _, apply_filters_false_intro conv today df hli hwi hsi, rfl, rfl, hcells, rfl⟩
  | true =>
    exact ⟨_, _, apply_filters_true_intro conv today df hli hwi hsi hoi, rfl, rfl, hcells, rfl⟩

/-- Claim C5 counterexample: on a table whose delivery date is an
unparsable string, `apply_filters` hands back an input table whose
delivery-date column has been overwritten (the parse failure turned the
cell into a missing value), so the input is not left unchanged. -/
theorem apply_filters_mutates_cex :
    apply_filters noConv 0 fixMutDf false =
      .ok ({ cols := fixMutDf.cols,
             rows := [[some (Value.str "VKS"), some (Value.str "VRIJ"), none, none]] },
           { cols := fixMutDf.cols, rows := [] }) ∧
    ({ cols := fixMutDf.cols,
       rows := [[some (Value.str "VKS"), some (Value.str "VRIJ"), none, none]] } : Table) ≠
      fixMutDf := by
  exact ⟨rfl, by decide⟩

/-- Claim C7: the filtered output's rows form a sublist of the rows of the
(post-call, in-place updated) input table, and re-applying the same filter
with the same flag and the same current date to the output reproduces the
output exactly. -/
theorem apply_filters_subset_idempotent
    (conv : Value → Option Int) (today : Int) (df : Table) (flag : Bool)
    {df1 out : Table}
    (h : apply_filters conv today df flag = .ok (df1, out)) :
    out.rows.Sublist df1.rows ∧
    apply_filters conv today out flag = .ok (out, out) := by
  obtain ⟨li, wi, si, hli, hwi, hsi, hc1, hr1, hoc, hcase⟩ := apply_filters_ok_elim h
  have hliO : colIdx? out "Leverdatum" = some li := by
    rw [colIdx?_congr_cols hoc]; exact hli
  have hwiO : colIdx? out "Verantw. Werkplek" = some wi := by
    rw [colIdx?_congr_cols hoc]; exact hwi
  have hsiO : colIdx? out "Status" = some si := by
    rw [colIdx?_congr_cols hoc]; exact hsi
  have hparsed : ∀ r ∈ out.rows, parseLevRow conv li r = r := by
    intro r hr
    have hmem : r ∈ df.rows.map (parseLevRow conv li) := by
      rcases hcase with ⟨-, hrows⟩ | ⟨-, oi, -, hrows⟩
      · rw [hrows] at hr
        exact List.mem_of_mem_filter hr
      · rw [hrows] at hr
        exact List.mem_of_mem_filter (List.mem_of_mem_filter hr)
    obtain ⟨r0, -, rfl⟩ := List.mem_map.mp hmem
    exact parseLevRow_idem conv li r0
  have hmapid : out.rows.map (parseLevRow conv li) = out.rows :=
    (List.map_congr_left hparsed).trans (List.map_id _)
  have hmask : ∀ r ∈ out.rows, rowMask today wi si li r = true := by
    intro r hr
    rcases hcase with ⟨-, hrows⟩ | ⟨-, oi, -, hrows⟩
    · rw [hrows] at hr
      exact List.of_mem_filter hr
    · rw [hrows] at hr
      exact List.of_mem_filter (List.mem_of_mem_filter hr)
  constructor
  · rcases hcase with ⟨-, hrows⟩ | ⟨-, oi, -, hrows⟩
    · rw [hrows, hr1]
      exact List.filter_sublist _
    · rw [hrows, hr1]
      exact (List.filter_sublist _).trans (List.filter_sublist _)
  · rcases hcase with ⟨hflag, hrows⟩ | ⟨hflag, oi, hoi, hrows⟩
    · subst hflag
      rw [apply_filters_false_intro conv today out hliO hwiO hsiO, hmapid,
        List.filter_eq_self.mpr hmask]
    · subst hflag
      have hoiO : colIdx? out "Omschrijving middel" = some oi := by
        rw [colIdx?_congr_cols hoc]; exact hoi
      have hdesc : ∀ r ∈ out.rows, (!descWsfx (cellAt r oi)) = true := by
        intro r hr
        rw [hrows] at hr
        simpa using List.of_mem_filter hr
      rw [apply_filters_true_intro conv today out hliO hwiO hsiO hoiO, hmapid,
        List.filter_eq_self.mpr hmask, List.filter_eq_self.mpr hdesc]

/-- Witness for the claim C3 theorem, instantiated on a grid with a decoy
row above the genuine header. -/
theorem find_table_locates_first_header_witness :
    (find_table_starting_from_columns fixGoodGrid appRequiredColumns = none ↔
      ∀ r ∈ fixGoodGrid, ¬ ∀ c ∈ appRequiredColumns, some (Value.str c) ∈ r) ∧
    ∀ t, find_table_starting_from_columns fixGoodGrid appRequiredColumns = some t →
      ∃ i, ∃ hi : i < fixGoodGrid.length,
        (∀ c ∈ appRequiredColumns, some (Value.str c) ∈ fixGoodGrid.get ⟨i, hi⟩) ∧
        (∀ r ∈ fixGoodGrid.take i, ¬ ∀ c ∈ appRequiredColumns, some (Value.str c) ∈ r) ∧
        t.cols = headerNames (fixGoodGrid.get ⟨i, hi⟩) ∧
        t.rows = (fixGoodGrid.drop (i + 1)).map (padTo t.cols.length) :=
  find_table_locates_first_header fixGoodGrid appRequiredColumns

/-- Witness for the claim C2 theorem at a concrete table and flag. -/
theorem apply_filters_row_characterization_witness :
    colIdx? fixFilterDf "Leverdatum" = some 2 ∧
    colIdx? fixFilterDf "Verantw. Werkplek" = some 0 ∧
    colIdx? fixFilterDf "Status" = some 1 ∧
    colIdx? fixFilterDf "Omschrijving middel" = some 3 ∧
    apply_filters noConv 10 fixFilterDf true = .ok (fixFilterMut, fixFilterOut) ∧
    fixFilterOut.rows = (fixFilterDf.rows.filter fun r =>
      workplaceVKS (cellAt r 0) && statusOk (cellAt r 1) &&
      deliveryOnTime noConv 10 (cellAt r 2) &&
      (!true || !descWsfx (cellAt r 3))).map (parseLevRow noConv 2) :=
  ⟨rfl, rfl, rfl, rfl, rfl,
    apply_filters_row_characterization noConv 10 fixFilterDf true rfl rfl rfl rfl rfl⟩

/-- Witness for the claim C5 theorem at a concrete table. -/
theorem apply_filters_frame_witness :
    colIdx? fixMutDf "Leverdatum" = some 2 ∧
    colIdx? fixMutDf "Verantw. Werkplek" = some 0 ∧
    colIdx? fixMutDf "Status" = some 1 ∧
    colIdx? fixMutDf "Omschrijving middel" = some 3 ∧
    (∃ df1 out, apply_filters noConv 0 fixMutDf true = .ok (df1, out) ∧
      df1.cols = fixMutDf.cols ∧
      df1.rows = fixMutDf.rows.map (parseLevRow noConv 2) ∧
      (∀ r ∈ fixMutDf.rows, ∀ j, j ≠ 2 → cellAt (parseLevRow noConv 2 r) j = cellAt r j) ∧
      out.cols = fixMutDf.cols) :=
  ⟨rfl, rfl, rfl, rfl, apply_filters_frame noConv 0 fixMutDf true rfl rfl rfl rfl⟩

/-- Witness for the claim C7 theorem at a concrete table. -/
theorem apply_filters_subset_idempotent_witness :
    apply_filters noConv 10 fixFilterDf true = .ok (fixFilterMut, fixFilterOut) ∧
    (fixFilterOut.rows.Sublist fixFilterMut.rows ∧
     apply_filters noConv 10 fixFilterOut true = .ok (fixFilterOut, fixFilterOut)) :=
  ⟨rfl, apply_filters_subset_idempotent noConv 10 fixFilterDf true rfl⟩

/-- Claim C4, amended: `create_aggregated_data` emits one row per distinct
non-missing assignee value — rows with a missing assignee are dropped by
`groupby`, not grouped — each carrying the number of rows with that
assignee; the rows are sorted by assignee value (not in first-appearance
order), and the counts sum to the number of rows whose assignee is present
(not to the total row count). -/
theorem create_aggregated_data_spec (df : Table) {ni : Nat}
    (hni : colIdx? df "Naam" = some ni) :
    ∃ ks : List Value,
      create_aggregated_data df = .ok
        { cols := ["Naam", "Aantal Taken"],
          rows := ks.map fun k =>
            [some k, some (Value.num (df.rows.countP fun r => cellAt r ni == some k))] } ∧
      ks.Nodup ∧
      (∀ v : Value, v ∈ ks ↔ some v ∈ df.rows.map fun r => cellAt r ni) ∧
      List.Sorted vleR ks ∧
      (ks.map fun k => df.rows.countP fun r => cellAt r ni == some k).sum =
        df.rows.countP fun r => (cellAt r ni).isSome := by
  refine ⟨groupKeys df.rows ni, ?_, nodup_groupKeys _ _, fun v => mem_groupKeys,
    sorted_groupKeys _ _, ?_⟩
  · unfold create_aggregated_data
    rw [hni]
  · exact sum_counts_eq _ (nodup_groupKeys df.rows ni) _ df.rows
      fun r hr v hv => mem_groupKeys.mpr (List.mem_map.mpr ⟨r, hr, hv⟩)

/-- Witness for the claim C4 theorem at a concrete table. -/
theorem create_aggregated_data_spec_witness :
    colIdx? fixAggDf "Naam" = some 0 ∧
    (∃ ks : List Value,
      create_aggregated_data fixAggDf = .ok
        { cols := ["Naam", "Aantal Taken"],
          rows := ks.map fun k =>
            [some k, some (Value.num (fixAggDf.rows.countP fun r => cellAt r 0 == some k))] } ∧
      ks.Nodup ∧
      (∀ v : Value, v ∈ ks ↔ some v ∈ fixAggDf.rows.map fun r => cellAt r 0) ∧
      List.Sorted vleR ks ∧
      (ks.map fun k => fixAggDf.rows.countP fun r => cellAt r 0 == some k).sum =
        fixAggDf.rows.countP fun r => (cellAt r 0).isSome) :=
  ⟨rfl, create_aggregated_data_spec fixAggDf rfl⟩

/-- Claim C4 counterexample: on a table whose assignees appear in the order
`B`, `A`, missing, the output is sorted (`A` before `B`), the missing
assignee is dropped, and the counts sum to 2 while the table has 3 rows —
refuting first-appearance ordering, missing keys as valid group keys, and
the sum-equals-row-count property. -/
theorem create_aggregated_data_cex :
    create_aggregated_data fixAggDf = .ok
      { cols := ["Naam", "Aantal Taken"],
        rows := [[some (Value.str "A"), some (Value.num 1)],
                 [some (Value.str "B"), some (Value.num 1)]] } ∧
    fixAggDf.rows.length = 3 ∧
    uniqueFirst (fixAggDf.rows.filterMap fun r => cellAt r 0) =
      [Value.str "B", Value.str "A"] :=
  ⟨rfl, rfl, rfl⟩

/-- Claim C8, amended: with an empty selected-column list the per-assignee
path of `process_filtered_data` does not succeed: `groupby("Naam")` raises
a missing-column error because `"Naam"` is not among the projected (zero)
columns.  Only the non-grouping path returns the degenerate zero-column
table. -/
theorem process_empty_selection (df : Table) :
    process_filtered_data df [] true = .error "KeyError: Naam" ∧
    process_filtered_data df [] false =
      .ok ({ cols := [], rows := df.rows.map fun _ => [] }, none) :=
  ⟨rfl, rfl⟩

/-- Claim C8 counterexample: on a concrete filtered table, calling the
grouping path with an empty selected-column list fails with a
missing-column error instead of succeeding. -/
theorem process_empty_selection_cex :
    process_filtered_data fixAggDf [] true = .error "KeyError: Naam" := rfl

/-! ## Lemmas about the comparison engine -/

theorem filter_not_contains_length (a b : List String) (ha : a.Nodup) :
    (a.filter fun s => ! b.contains s).length = (a.toFinset \ b.toFinset).card := by
  rw [← List.toFinset_card_of_nodup (ha.filter _)]
  congr 1
  ext x
  simp [List.mem_toFinset, List.mem_filter, Finset.mem_sdiff, List.elem_iff]

theorem filter_contains_length (a b : List String) (ha : a.Nodup) :
    (a.filter fun s => b.contains s).length = (a.toFinset ∩ b.toFinset).card := by
  rw [← List.toFinset_card_of_nodup (ha.filter _)]
  congr 1
  ext x
  simp [List.mem_toFinset, List.mem_filter, Finset.mem_inter, List.elem_iff]

theorem filter_contains_toFinset (a b : List String) :
    (a.filter fun s => b.contains s).toFinset = a.toFinset ∩ b.toFinset := by
  ext x
  simp [List.mem_toFinset, List.mem_filter, Finset.mem_inter, List.elem_iff]

theorem nodup_idList (t : Table) (ni oi : Nat) (key : Cell) :
    (idList t ni oi key).Nodup :=
  nodup_uniqueFirst _

theorem toFinset_idList (t : Table) (ni oi : Nat) (key : Cell) :
    (idList t ni oi key).toFinset = idFinset t ni oi key :=
  toFinset_uniqueFirst _

theorem mkCompRow_counts (key : Cell) (cur prev : List String)
    (hc : cur.Nodup) (hp : prev.Nodup) :
    (mkCompRow key cur prev).naam = key ∧
    (mkCompRow key cur prev).nieuwe = (cur.toFinset \ prev.toFinset).card ∧
    (mkCompRow key cur prev).oude = (cur.toFinset ∩ prev.toFinset).card ∧
    (mkCompRow key cur prev).vorige = prev.toFinset.card ∧
    (mkCompRow key cur prev).bewerkte = (prev.toFinset \ cur.toFinset).card ∧
    ∃ l : List String, l.Nodup ∧ l.toFinset = cur.toFinset ∩ prev.toFinset ∧
      (mkCompRow key cur prev).gemeenschappelijk = String.intercalate ", " l := by
  refine ⟨rfl, filter_not_contains_length cur prev hc, filter_contains_length cur prev hc,
    (List.toFinset_card_of_nodup hp).symm, filter_not_contains_length prev cur hp,
    cur.filter (fun s => prev.contains s), hc.filter _, filter_contains_toFinset cur prev,
    ?_⟩
  show (if (cur.filter fun s => prev.contains s).isEmpty then ""
    else String.intercalate ", " (cur.filter fun s => prev.contains s)) =
    String.intercalate ", " (cur.filter fun s => prev.contains s)
  cases he : cur.filter fun s => prev.contains s with
  | nil => rfl
  | cons a l => rfl

theorem mkCompRow_percentage (key : Cell) (cur prev : List String) :
    0 ≤ (mkCompRow key cur prev).percentage ∧
    (mkCompRow key cur prev).percentage ≤ 100 ∧
    ((mkCompRow key cur prev).vorige = 0 → (mkCompRow key cur prev).percentage = 0) := by
  have hle : (prev.filter fun s => ! cur.contains s).length ≤ prev.length :=
    List.length_filter_le _ _
  rcases Nat.eq_zero_or_pos prev.length with h0 | hpos
  · have hz : (mkCompRow key cur prev).percentage = 0 := by
      show round1 (if prev.length > 0
        then (((prev.filter fun s => ! cur.contains s).length * 100 : ℚ)) / prev.length
        else 0) = 0
      rw [h0]
      norm_num [round1_zero]
    exact ⟨by rw [hz], by rw [hz]; norm_num, fun _ => hz⟩
  · have hq0 : (0:ℚ) ≤
        (((prev.filter fun s => ! cur.contains s).length * 100 : ℚ)) / prev.length := by
      positivity
    have hq1 : (((prev.filter fun s => ! cur.contains s).length * 100 : ℚ)) /
        prev.length ≤ 100 := by
      rw [div_le_iff₀ (by exact_mod_cast hpos)]
      have hcast : ((prev.filter fun s => ! cur.contains s).length : ℚ) ≤
          (prev.length : ℚ) := by exact_mod_cast hle
      nlinarith [hcast]
    have hper : (mkCompRow key cur prev).percentage =
        round1 ((((prev.filter fun s => ! cur.contains s).length * 100 : ℚ)) /
          prev.length) := by
      show round1 (if prev.length > 0
        then (((prev.filter fun s => ! cur.contains s).length * 100 : ℚ)) / prev.length
        else 0) = _
      rw [if_pos hpos]
    refine ⟨?_, ?_, ?_⟩
    · rw [hper]
      exact round1_nonneg hq0
    · rw [hper]
      exact round1_le_100 hq1
    · intro hv
      exact absurd hv (by show prev.length ≠ 0; omega)

theorem compare_ok_intro (current previous : Table) {ci pi2 oi oj : Nat}
    (hci : colIdx? current "Naam" = some ci)
    (hpi : colIdx? previous "Naam" = some pi2)
    (hoi : colIdx? current (obColOf current) = some oi)
    (hoj : colIdx? previous (obColOf current) = some oj) :
    compare_tasks_grouped_by_name current previous = .ok (obColOf current,
      (uniqueFirst ((current.rows.map fun r => cellAt r ci) ++
        (previous.rows.map fun r => cellAt r pi2))).map
        fun key => mkCompRow key (idList current ci oi key) (idList previous pi2 oj key)) := by
  have hci' : List.findIdx? (· == "Naam") current.cols = some ci := hci
  have hpi' : List.findIdx? (· == "Naam") previous.cols = some pi2 := hpi
  have hf : ∀ key ∈ uniqueFirst ((current.rows.map fun r => cellAt r ci) ++
      (previous.rows.map fun r => cellAt r pi2)),
      compareRowFor (obColOf current) current previous ci pi2 key =
        .ok (mkCompRow key (idList current ci oi key) (idList previous pi2 oj key)) := by
    intro key _
    unfold compareRowFor
    rw [hoi, hoj]
  simp only [compare_tasks_grouped_by_name, colIdx?, hci', hpi']
  rw [mapME_ok_map hf]
  rfl

theorem compare_ok_elim {current previous : Table} {ob : String}
    {rows : List ComparisonRow}
    (h : compare_tasks_grouped_by_name current previous = .ok (ob, rows)) :
    ob = obColOf current ∧
    ∀ row ∈ rows, ∃ key cur prev, row = mkCompRow key cur prev := by
  simp only [compare_tasks_grouped_by_name, colIdx?] at h
  cases hci : List.findIdx? (· == "Naam") current.cols with
  | none =>
    rw [hci] at h
    exact absurd h (by simp)
  | some ci =>
  rw [hci] at h
  cases hpi : List.findIdx? (· == "Naam") previous.cols with
  | none =>
    rw [hpi] at h
    exact absurd h (by simp)
  | some pi2 =>
  rw [hpi] at h
  have h' : Except.map (fun rows => (obColOf current, rows))
      (mapME (compareRowFor (obColOf current) current previous ci pi2)
        (uniqueFirst ((current.rows.map fun r => cellAt r ci) ++
          (previous.rows.map fun r => cellAt r pi2)))) = Except.ok (ob, rows) := h
  cases hm : mapME (compareRowFor (obColOf current) current previous ci pi2)
      (uniqueFirst ((current.rows.map fun r => cellAt r ci) ++
        (previous.rows.map fun r => cellAt r pi2))) with
  | error e =>
    rw [hm] at h'
    exact absurd h' (by simp [Except.map])
  | ok bs =>
  rw [hm] at h'
  simp only [Except.map, Except.ok.injEq, Prod.mk.injEq] at h'
  obtain ⟨hob, hbs⟩ := h'
  subst hob
  subst hbs
  refine ⟨rfl, ?_⟩
  intro row hrow
  obtain ⟨key, hkey, hfk⟩ := mapME_ok_elim hm row hrow
  unfold compareRowFor at hfk
  cases hoi : colIdx? current (obColOf current) with
  | none =>
    rw [hoi] at hfk
    exact absurd hfk (by simp)
  | some oi =>
  rw [hoi] at hfk
  cases hoj : colIdx? previous (obColOf current) with
  | none =>
    rw [hoj] at hfk
    exact absurd hfk (by simp)
  | some oj =>
  rw [hoj] at hfk
  exact ⟨key, _, _, (Except.ok.inj hfk).symm⟩

/-- Claim C6, amended: every percentage in the comparison output lies in
[0, 100], and it is 0 whenever the assignee's previous total is 0 — but not
only then: a zero edited count also yields percentage 0 with a positive
previous total, so "exactly when" fails. -/
theorem compare_percentage_bounds {current previous : Table} {ob : String}
    {rows : List ComparisonRow}
    (h : compare_tasks_grouped_by_name current previous = .ok (ob, rows)) :
    ∀ row ∈ rows, 0 ≤ row.percentage ∧ row.percentage ≤ 100 ∧
      (row.vorige = 0 → row.percentage = 0) := by
  intro row hrow
  obtain ⟨-, hrows⟩ := compare_ok_elim h
  obtain ⟨key, cur, prev, rfl⟩ := hrows row hrow
  exact mkCompRow_percentage key cur prev

/-- Witness for the claim C6 theorem at a concrete pair of tables. -/
theorem compare_percentage_bounds_witness :
    compare_tasks_grouped_by_name fixCur fixPrev =
      .ok ("OH-order", [mkCompRow (some (Value.str "A")) ["1", "2"] ["2", "3"]]) ∧
    ∀ row ∈ [mkCompRow (some (Value.str "A")) ["1", "2"] ["2", "3"]],
      0 ≤ row.percentage ∧ row.percentage ≤ 100 ∧
        (row.vorige = 0 → row.percentage = 0) := by
  have h : compare_tasks_grouped_by_name fixCur fixPrev =
      .ok ("OH-order", [mkCompRow (some (Value.str "A")) ["1", "2"] ["2", "3"]]) := by
    rw [compare_ok_intro fixCur fixPrev rfl rfl rfl rfl]
    exact rfl
  exact ⟨h, compare_percentage_bounds h⟩

/-- Claim C6 counterexample: with identical current and previous data the
assignee's row has previousTotal 1 but percentage 0, so percentage 0 does
not imply a zero previous total. -/
theorem compare_percentage_zero_cex :
    compare_tasks_grouped_by_name fixSame fixSame =
      .ok ("OH-order", [mkCompRow (some (Value.str "A")) ["1"] ["1"]]) ∧
    (mkCompRow (some (Value.str "A")) ["1"] ["1"]).percentage = 0 ∧
    (mkCompRow (some (Value.str "A")) ["1"] ["1"]).vorige = 1 := by
  refine ⟨by rw [compare_ok_intro fixSame fixSame rfl rfl rfl rfl]; exact rfl, ?_, rfl⟩
  norm_num [mkCompRow, round1]

/-- Claim C10, amended: when at least one assignee exists, a missing
identifier column (in the current or the previous table) makes the
comparison raise a missing-column error; with an empty assignee union the
loop body never runs and the comparison returns an empty result instead. -/
theorem compare_missing_idcol_error (current previous : Table) {ci pi2 : Nat}
    (hci : colIdx? current "Naam" = some ci)
    (hpi : colIdx? previous "Naam" = some pi2)
    (hmiss : colIdx? current (obColOf current) = none ∨
      colIdx? previous (obColOf current) = none)
    (hne : current.rows ≠ [] ∨ previous.rows ≠ []) :
    compare_tasks_grouped_by_name current previous =
      .error ("KeyError: " ++ obColOf current) := by
  have hci' : List.findIdx? (· == "Naam") current.cols = some ci := hci
  have hpi' : List.findIdx? (· == "Naam") previous.cols = some pi2 := hpi
  simp only [compare_tasks_grouped_by_name, colIdx?, hci', hpi']
  have hcat : (current.rows.map fun r => cellAt r ci) ++
      (previous.rows.map fun r => cellAt r pi2) ≠ [] := by
    rcases hne with hne | hne
    · intro hc
      rcases List.append_eq_nil.mp hc with ⟨h1, -⟩
      exact hne (List.map_eq_nil_iff.mp h1)
    · intro hc
      rcases List.append_eq_nil.mp hc with ⟨-, h2⟩
      exact hne (List.map_eq_nil_iff.mp h2)
  cases hl : (current.rows.map fun r => cellAt r ci) ++
      (previous.rows.map fun r => cellAt r pi2) with
  | nil => exact absurd hl hcat
  | cons k t =>
    rw [show uniqueFirst (k :: t) = k :: uniqueFirstAux [k] t by
      simp [uniqueFirst, uniqueFirstAux]]
    have hferr : compareRowFor (obColOf current) current previous ci pi2 k =
        .error ("KeyError: " ++ obColOf current) := by
      unfold compareRowFor
      rcases hmiss with hm | hm
      · rw [hm]
        cases colIdx? previous (obColOf current) <;> exact rfl
      · cases hoc : colIdx? current (obColOf current) with
        | none => rw [hm]
        | some oi => rw [hm]
    rw [mapME_error_head hferr]
    rfl

/-- Witness for the claim C10 theorem at a concrete pair of tables. -/
theorem compare_missing_idcol_error_witness :
    colIdx? fixNoIdOneRow "Naam" = some 0 ∧
    colIdx? fixNoIdOneRow (obColOf fixNoIdOneRow) = none ∧
    fixNoIdOneRow.rows ≠ [] ∧
    compare_tasks_grouped_by_name fixNoIdOneRow fixNoIdOneRow =
      .error ("KeyError: " ++ obColOf fixNoIdOneRow) :=
  ⟨rfl, rfl, by decide,
    compare_missing_idcol_error fixNoIdOneRow fixNoIdOneRow rfl rfl (Or.inl rfl)
      (Or.inl (by decide))⟩

/-- Claim C10 counterexample: with both tables empty of rows and the
identifier column absent everywhere, the comparison does not raise — it
returns an empty ok result, because the identifier column is only touched
inside the per-assignee loop. -/
theorem compare_empty_names_ok_cex :
    compare_tasks_grouped_by_name fixNoIdEmpty fixNoIdEmpty = .ok ("OH-order", []) ∧
    obColOf fixNoIdEmpty = "OH-order" ∧
    colIdx? fixNoIdEmpty "OH-order" = none :=
  ⟨rfl, rfl, rfl⟩

/-- Claim C1, amended: the comparison emits exactly one row per distinct
assignee value in the union of the two `Naam` columns (the missing value
counting as one key), with the identifier column preferred by the
`"Obligo extern formaa"` substring and `"OH-order"` as fallback; per row,
newCount, retainedCount, previousTotal and editedCount are the cardinalities
of the corresponding set differences/intersection of the per-assignee
identifier sets, and commonList joins a duplicate-free enumeration of the
intersection with `", "` — where a missing assignee key matches no rows
(pandas `NaN == NaN` is false), so its sets are empty, rather than the sets
of the rows with a missing assignee. -/
theorem compare_tasks_spec (current previous : Table) {ci pi2 oi oj : Nat}
    (hci : colIdx? current "Naam" = some ci)
    (hpi : colIdx? previous "Naam" = some pi2)
    (hoi : colIdx? current (obColOf current) = some oi)
    (hoj : colIdx? previous (obColOf current) = some oj) :
    ∃ rows : List ComparisonRow,
      compare_tasks_grouped_by_name current previous = .ok (obColOf current, rows) ∧
      (rows.map fun row => row.naam).Nodup ∧
      (∀ v : Cell, ((v ∈ rows.map fun row => row.naam) ↔
        (v ∈ current.rows.map fun r => cellAt r ci) ∨
          (v ∈ previous.rows.map fun r => cellAt r pi2))) ∧
      ∀ row ∈ rows,
        row.nieuwe =
          (idFinset current ci oi row.naam \ idFinset previous pi2 oj row.naam).card ∧
        row.oude =
          (idFinset current ci oi row.naam ∩ idFinset previous pi2 oj row.naam).card ∧
        row.vorige = (idFinset previous pi2 oj row.naam).card ∧
        row.bewerkte =
          (idFinset previous pi2 oj row.naam \ idFinset current ci oi row.naam).card ∧
        ∃ l : List String, l.Nodup ∧
          l.toFinset = idFinset current ci oi row.naam ∩ idFinset previous pi2 oj row.naam ∧
          row.gemeenschappelijk = String.intercalate ", " l := by
  have hmap : ∀ l : List Cell,
      ((l.map fun key =>
        mkCompRow key (idList current ci oi key) (idList previous pi2 oj key)).map
          fun row => row.naam) = l := by
    intro l
    rw [List.map_map]
    exact (List.map_congr_left fun a _ => rfl).trans (List.map_id _)
  refine ⟨_, compare_ok_intro current previous hci hpi hoi hoj, ?_, ?_, ?_⟩
  · rw [hmap]
    exact nodup_uniqueFirst _
  · intro v
    rw [hmap, mem_uniqueFirst, List.mem_append]
  · intro row hrow
    obtain ⟨key, hkey, rfl⟩ := List.mem_map.mp hrow
    obtain ⟨-, h1, h2, h3, h4, l, hl1, hl2, hl3⟩ :=
      mkCompRow_counts key (idList current ci oi key) (idList previous pi2 oj key)
        (nodup_idList current ci oi key) (nodup_idList previous pi2 oj key)
    simp only [toFinset_idList] at h1 h2 h3 h4 hl2
    exact ⟨h1, h2, h3, h4, l, hl1, hl2, hl3⟩

/-- Witness for the claim C1 theorem at a concrete pair of tables
(spec §8 scenario 6: current `A {1, 2}`, previous `A {2, 3}`). -/
theorem compare_tasks_spec_witness :
    colIdx? fixCur "Naam" = some 0 ∧
    colIdx? fixPrev "Naam" = some 0 ∧
    colIdx? fixCur (obColOf fixCur) = some 1 ∧
    colIdx? fixPrev (obColOf fixCur) = some 1 ∧
    (∃ rows : List ComparisonRow,
      compare_tasks_grouped_by_name fixCur fixPrev = .ok (obColOf fixCur, rows) ∧
      (rows.map fun row => row.naam).Nodup ∧
      (∀ v : Cell, ((v ∈ rows.map fun row => row.naam) ↔
        (v ∈ fixCur.rows.map fun r => cellAt r 0) ∨
          (v ∈ fixPrev.rows.map fun r => cellAt r 0))) ∧
      ∀ row ∈ rows,
        row.nieuwe = (idFinset fixCur 0 1 row.naam \ idFinset fixPrev 0 1 row.naam).card ∧
        row.oude = (idFinset fixCur 0 1 row.naam ∩ idFinset fixPrev 0 1 row.naam).card ∧
        row.vorige = (idFinset fixPrev 0 1 row.naam).card ∧
        row.bewerkte = (idFinset fixPrev 0 1 row.naam \ idFinset fixCur 0 1 row.naam).card ∧
        ∃ l : List String, l.Nodup ∧
          l.toFinset = idFinset fixCur 0 1 row.naam ∩ idFinset fixPrev 0 1 row.naam ∧
          row.gemeenschappelijk = String.intercalate ", " l) :=
  ⟨rfl, rfl, rfl, rfl, compare_tasks_spec fixCur fixPrev rfl rfl rfl rfl⟩

/-- Claim C1 counterexample: the current table's only row has a missing
assignee and identifier `"7"`; the claim's per-assignee current set for the
missing key has cardinality 1, yet the emitted row reports newCount 0,
because the pandas comparison `NaN == NaN` matches no rows. -/
theorem compare_missing_assignee_cex :
    compare_tasks_grouped_by_name fixCurMissing fixPrevEmpty =
      .ok ("OH-order", [mkCompRow none [] []]) ∧
    (mkCompRow none [] []).nieuwe = 0 ∧
    (claimIdSet fixCurMissing 0 1 none \ claimIdSet fixPrevEmpty 0 1 none).card = 1 := by
  refine ⟨?_, rfl, by decide⟩
  rw [compare_ok_intro fixCurMissing fixPrevEmpty rfl rfl rfl rfl]
  exact rfl

/-- Claim C9, amended: the newline-normalized column names of a located
table are pairwise distinct provided the raw header names are still
pairwise distinct after normalization — the code does not re-deduplicate,
and distinct raw headers can collide after the replacement — and the
filter step preserves the column-name list of both the mutated input and
the output. -/
theorem normalize_unique_of_header_unique {grid : List Row} {required : List String}
    {t : Table} (_h : find_table_starting_from_columns grid required = some t)
    (hnd : (t.cols.map normalizeName).Nodup) :
    (normalizeTable t).cols.Nodup ∧
    ∀ (conv : Value → Option Int) (today : Int) (flag : Bool) (df1 out : Table),
      apply_filters conv today (normalizeTable t) flag = .ok (df1, out) →
      df1.cols = (normalizeTable t).cols ∧ out.cols = (normalizeTable t).cols := by
  refine ⟨hnd, ?_⟩
  intro conv today flag df1 out hap
  obtain ⟨li, wi, si, -, -, -, hc1, -, hoc, -⟩ := apply_filters_ok_elim hap
  exact ⟨hc1, hoc⟩

/-- Witness for the claim C9 theorem on a located table whose normalized
header names stay distinct. -/
theorem normalize_unique_of_header_unique_witness :
    find_table_starting_from_columns fixGoodGrid appRequiredColumns = some fixGoodTab ∧
    (fixGoodTab.cols.map normalizeName).Nodup ∧
    ((normalizeTable fixGoodTab).cols.Nodup ∧
      ∀ (conv : Value → Option Int) (today : Int) (flag : Bool) (df1 out : Table),
        apply_filters conv today (normalizeTable fixGoodTab) flag = .ok (df1, out) →
        df1.cols = (normalizeTable fixGoodTab).cols ∧
          out.cols = (normalizeTable fixGoodTab).cols) :=
  ⟨rfl, by decide,
    @normalize_unique_of_header_unique fixGoodGrid appRequiredColumns fixGoodTab rfl
      (by decide)⟩

/-- Claim C9 counterexample: a header row carrying both `"A\nB"` and
`"A B"` yields a located table whose column names are distinct, but after
the newline-normalization step of app.py line 61 the two names coincide,
so the normalized column names are not pairwise distinct. -/
theorem normalize_collision_cex :
    find_table_starting_from_columns fixCollideGrid appRequiredColumns =
      some fixCollideTab ∧
    ¬ (normalizeTable fixCollideTab).cols.Nodup :=
  ⟨rfl, by decide⟩

end ExcelJoey
